import Mathlib

/-!
A shallow embedding of the cohort revenue pipeline in `src/pipeline_core.py`
(`RevenuePipeline`), together with theorems about its components: cohort-label
date resolution, identifier extraction with memoization, exchange-rate
resolution, chunked querying, pack processing, cohort aggregation and the two
orchestrator entry points.

External effects (filesystem, query backend, rate service, thread pool) are
modelled as explicit parameters; machine floats are modelled as rationals.
-/

namespace Pipeline

/-- The whitespace characters stripped by Python's `str.strip()` (ASCII range:
space, tab, newline, carriage return, vertical tab, form feed). -/
def isPySpace (c : Char) : Bool :=
  c == ' ' || c == '\t' || c == '\n' || c == '\r' ||
    c == Char.ofNat 11 || c == Char.ofNat 12

/-- Python `str.strip()` acting on the underlying character list. -/
def pyStripList (l : List Char) : List Char :=
  ((l.dropWhile isPySpace).reverse.dropWhile isPySpace).reverse

/-- Python `str.strip()` (with no argument): drop leading and trailing
whitespace. -/
def pyStrip (s : String) : String :=
  ⟨pyStripList s.data⟩

/-- Python `str.lower()` (ASCII case folding suffices for the month tokens
this program compares). -/
def pyLower (s : String) : String :=
  ⟨s.data.map Char.toLower⟩

/-- Python `str.capitalize()`: first character upper-cased, all remaining
characters lower-cased. -/
def pyCapitalize (s : String) : String :=
  match s.data with
  | [] => ""
  | c :: rest => ⟨c.toUpper :: rest.map Char.toLower⟩

/-- Splitting a character list at every occurrence of `sep`, keeping empty
segments, as Python's `str.split(sep)` does. -/
def splitOnCharList (sep : Char) : List Char → List (List Char)
  | [] => [[]]
  | c :: rest =>
    let r := splitOnCharList sep rest
    if c == sep then [] :: r
    else
      match r with
      | [] => [[c]]
      | h :: t => (c :: h) :: t

/-- Python `s.split(sep)` for a one-character separator. -/
def pySplit (sep : Char) (s : String) : List String :=
  (splitOnCharList sep s.data).map (fun l => ⟨l⟩)

/-- The digits of a decimal numeral, or `none` if the list is empty or holds a
non-digit. -/
def digitsVal : List Char → Option Nat
  | [] => none
  | cs =>
    if cs.all (fun c => c.isDigit) then
      some (cs.foldl (fun a c => a * 10 + (c.toNat - 48)) 0)
    else none

/-- Python `int(s)` on a string: optional surrounding whitespace, an optional
sign, then a non-empty run of decimal digits; anything else raises, modelled
as `none`. (Digit-group underscores cannot occur here: the argument is a
fragment produced by splitting on the underscore.) -/
def pyInt (s : String) : Option Int :=
  match pyStripList s.data with
  | '+' :: rest => (digitsVal rest).map (fun n => (n : Int))
  | '-' :: rest => (digitsVal rest).map (fun n => -(n : Int))
  | rest => (digitsVal rest).map (fun n => (n : Int))

/-- The month-name table of `get_date_range`: full names and three-letter
abbreviations, mapped to month numbers. -/
def month_map : List (String × Nat) :=
  [("january", 1), ("jan", 1),
   ("february", 2), ("feb", 2),
   ("march", 3), ("mar", 3),
   ("april", 4), ("apr", 4),
   ("may", 5),
   ("june", 6), ("jun", 6),
   ("july", 7), ("jul", 7),
   ("august", 8), ("aug", 8),
   ("september", 9), ("sep", 9),
   ("october", 10), ("oct", 10),
   ("november", 11), ("nov", 11),
   ("december", 12), ("dec", 12)]

/-- Dictionary lookup in the month table. -/
def monthLookup (s : String) : Option Nat :=
  (month_map.find? (fun p => p.1 == s)).map (fun p => p.2)

/-- A calendar date, as held by a Python `datetime` (time-of-day parts are
never used by the pipeline). -/
structure Date where
  year : Nat
  month : Nat
  day : Nat
  deriving Repr, DecidableEq

/-- Gregorian leap-year rule, as used by `datetime`. -/
def isLeapYear (y : Nat) : Bool :=
  y % 4 == 0 && (y % 100 != 0 || y % 400 == 0)

/-- Number of days in a month of a given year. -/
def daysInMonth (y m : Nat) : Nat :=
  if m == 2 then (if isLeapYear y then 29 else 28)
  else if m == 4 || m == 6 || m == 9 || m == 11 then 30
  else 31

/-- The calendar day after `d`. -/
def nextDay (d : Date) : Date :=
  if d.day < daysInMonth d.year d.month then ⟨d.year, d.month, d.day + 1⟩
  else if d.month < 12 then ⟨d.year, d.month + 1, 1⟩
  else ⟨d.year + 1, 1, 1⟩

/-- Addition `d + timedelta(days = n)` for a non-negative day count. -/
def addDays (d : Date) : Nat → Date
  | 0 => d
  | n + 1 => nextDay (addDays d n)

/-- The `datetime(year, month, day)` constructor: validates the ranges that
`datetime` enforces and raises (modelled as `none`) otherwise. -/
def mkDatetime (year month : Nat) (day : Int) : Option Date :=
  if 1 ≤ year ∧ year ≤ 9999 ∧ 1 ≤ month ∧ month ≤ 12 ∧
      1 ≤ day ∧ day ≤ (daysInMonth year month : Int) then
    some ⟨year, month, day.toNat⟩
  else none

/-- Zero-padding to two digits, as `%m` / `%d` of `strftime` do. -/
def pad2 (n : Nat) : String :=
  if n < 10 then "0" ++ toString n else toString n

/-- Zero-padding to four digits, as `%Y` of `strftime` does for the years in
range here. -/
def pad4 (n : Nat) : String :=
  if n < 10 then "000" ++ toString n
  else if n < 100 then "00" ++ toString n
  else if n < 1000 then "0" ++ toString n
  else toString n

/-- Formatting by `strftime("%Y-%m-%d")`. -/
def formatDate (d : Date) : String :=
  pad4 d.year ++ "-" ++ pad2 d.month ++ "-" ++ pad2 d.day

/-- The method `RevenuePipeline.get_date_range`, as a function of the current calendar
year (`datetime.now().year`), the configured window size and the cohort label.
Every exception of the original body is caught and turned into `(None, None)`,
modelled as `none`; success returns the two formatted date strings. The final
year guard models the `OverflowError` that `timedelta` addition raises past
year 9999. -/
def get_date_range (current_year window_size : Nat) (cohort_name : String) :
    Option (String × String) :=
  match pySplit (Char.ofNat 95) cohort_name with
  | [dayStr, monthStr] =>
    match pyInt dayStr with
    | none => none
    | some day =>
      match monthLookup (pyLower monthStr) with
      | none => none
      | some month =>
        match mkDatetime current_year month day with
        | none => none
        | some start_date =>
          let end_date := addDays start_date (window_size - 1)
          if end_date.year ≤ 9999 then
            some (formatDate start_date, formatDate end_date)
          else none
  | _ => none

/-! ## Identifier extraction (`extract_unique_user_ids`) -/

/-- What the filesystem holds at one CSV path, as seen through
`os.path.exists` and `pd.read_csv(usecols=["user_pseudo_id"])`:
the file may be absent, unreadable (a malformed file or a missing
`user_pseudo_id` column makes `read_csv` raise, which the code absorbs), or a
table whose `user_pseudo_id` column is a list of cells; a `none` cell is a
missing value (`NaN`), dropped by `dropna()`. -/
inductive FileContent where
  | missing : FileContent
  | unreadable : FileContent
  | table (cells : List (Option String)) : FileContent

/-- A filesystem: what each path holds. -/
abbrev FS := String → FileContent

/-- Adding one element to a Python `set`, modelled as a duplicate-free list
(the set's iteration order is immaterial to the program's results; insertion
order is one concrete refinement of it). -/
def insertNew (acc : List String) (x : String) : List String :=
  if x ∈ acc then acc else x :: acc

/-- The per-file cleaning applied to the `user_pseudo_id` column:
`dropna()`, `astype(str).str.strip()`, then dropping empty strings. -/
def validCells (cells : List (Option String)) : List String :=
  ((cells.filterMap id).map pyStrip).filter (fun s => !(s == ""))

/-- The identifiers a single source file contributes (empty for a missing or
unreadable file, whose error is logged and skipped). -/
def fileValidIds : FileContent → List String
  | .missing => []
  | .unreadable => []
  | .table cells => validCells cells

/-- The attribute `self.user_cache`: a dictionary keyed by the sorted tuple of input paths.
A dictionary is modelled as an association list where lookup returns the most
recently inserted binding. -/
abbrev Cache := List (List String × List String)

/-- Dictionary lookup in the identifier cache. -/
def cacheLookup (c : Cache) (k : List String) : Option (List String) :=
  (c.find? (fun p => p.1 == k)).map (fun p => p.2)

/-- Code-point lexicographic string order, the order Python's `sorted` uses
on strings. -/
def strLeChars : List Char → List Char → Bool
  | [], _ => true
  | _ :: _, [] => false
  | a :: as, b :: bs =>
    if a.toNat < b.toNat then true
    else if b.toNat < a.toNat then false
    else strLeChars as bs

/-- Comparison `a <= b` on strings, by code point. -/
def strLe (a b : String) : Bool :=
  strLeChars a.data b.data

/-- Insertion sort step for the cache key. -/
def insertSorted (x : String) : List String → List String
  | [] => [x]
  | y :: ys => if strLe x y then x :: y :: ys else y :: insertSorted x ys

/-- Python `tuple(sorted(csv_paths))`. -/
def sortKey (l : List String) : List String :=
  l.foldr insertSorted []

/-- The loop body of `extract_unique_user_ids`: the accumulator is the
identifier set so far and the number of files opened and read so far. A
missing file is skipped without a read; an unreadable file is opened, raises
inside `read_csv`, and the error is absorbed; a readable file's cleaned
`user_pseudo_id` column is unioned into the set. -/
def extractStep (fs : FS) (acc : List String × Nat) (p : String) :
    List String × Nat :=
  match fs p with
  | .missing => acc
  | .unreadable => (acc.1, acc.2 + 1)
  | .table cells => ((validCells cells).foldl insertNew acc.1, acc.2 + 1)

/-- The outcome of one `extract_unique_user_ids` call: the identifier list it
returns, the cache afterwards, and how many files were actually opened and
read during the call (instrumentation for the memoization property; a cache
hit reads nothing). -/
structure ExtractResult where
  ids : List String
  cache : Cache
  reads : Nat
  deriving Repr, DecidableEq

/-- The method `RevenuePipeline.extract_unique_user_ids`: on a cache hit return the
cached list unchanged; otherwise fold over the paths, skipping missing files,
absorbing per-file read errors, cleaning and unioning the `user_pseudo_id`
column of each readable file, apply the final truthiness filter
(`uid and str(uid).strip()`), store the result under the sorted-paths key and
return it. -/
def extract_unique_user_ids (fs : FS) (cache : Cache) (csv_paths : List String) :
    ExtractResult :=
  let key := sortKey csv_paths
  match cacheLookup cache key with
  | some v => ⟨v, cache, 0⟩
  | none =>
    let r := csv_paths.foldl (extractStep fs) ([], 0)
    let user_ids := r.1.filter (fun uid => !(uid == "") && !(pyStrip uid == ""))
    ⟨user_ids, (key, user_ids) :: cache, r.2⟩

/-! ## Exchange rate (`get_exchange_rate`) -/

/-- The decoded JSON body of the rate service's reply, paired with the HTTP
status code: `rates` maps each date to a currency-to-rate table. -/
structure RateResponse where
  status_code : Nat
  rates : List (String × List (String × Rat))

/-- Lookup in one date's currency table (`rate["INR"]` guarded by
`"INR" in rate`). -/
def jsonLookup (m : List (String × Rat)) (k : String) : Option Rat :=
  (m.find? (fun p => p.1 == k)).map (fun p => p.2)

/-- The `INR` entries of all dates in the reply, in reply order. -/
def inrValues (resp : RateResponse) : List Rat :=
  resp.rates.filterMap (fun kv => jsonLookup kv.2 ("INR"))

/-- The method `RevenuePipeline.get_exchange_rate`, as a function of the configuration
flags and of the network outcome `net` (`none` models a network failure, a
timeout or any other exception of the request/JSON decoding, all absorbed by
the `except` clause). Returns the rate together with whether a network call
was made. The function is total: no failure propagates. -/
def get_exchange_rate (use_live_rates : Bool) (fallback_rate : Rat)
    (net : Option RateResponse) : Rat × Bool :=
  if !use_live_rates then (fallback_rate, false)
  else
    match net with
    | none => (fallback_rate, true)
    | some resp =>
      if resp.status_code ≠ 200 then (fallback_rate, true)
      else
        let inr_values := inrValues resp
        if inr_values = [] then (fallback_rate, true)
        else ((inr_values.foldl (· + ·) 0) / (inr_values.length : Rat), true)

/-! ## Query batching (`run_query`) -/

/-- One row of the query result: the five projected columns. -/
structure Row where
  event_date : String
  product_id : String
  product_value : Rat
  product_value_INR : Rat
  user_pseudo_id : String
  deriving Repr, DecidableEq

/-- The opaque tabular-query backend: one synchronous query for one chunk of
identifiers; `none` models the query raising, `some rows` a result set. The
date range and rate only shape the query text, so the model keys the call by
the chunk. -/
abbrev Backend := List String → Option (List Row)

/-- Consecutive chunks of at most `k` elements, fuelled by the input length
(Python's `range(0, len(xs), k)` slicing; `k = 0` raises in Python and is
excluded by hypothesis wherever this is used). -/
def chunksOfAux (k : Nat) : Nat → List α → List (List α)
  | 0, _ => []
  | _, [] => []
  | fuel + 1, l => l.take k :: chunksOfAux k fuel (l.drop k)

/-- The slices `xs[i : i + k]` for `i = 0, k, 2k, ...`. -/
def chunksOf (k : Nat) (l : List α) : List (List α) :=
  chunksOfAux k l.length l

/-- The rows one chunk contributes to the concatenation: a failing chunk query
is logged and skipped, contributing nothing. -/
def chunkRows (backend : Backend) (c : List String) : List Row :=
  match backend c with
  | none => []
  | some rows => rows

/-- The loop body of `run_query`: query one chunk, skip it if the query
raises, and append its result set when it is non-empty. -/
def collectChunk (backend : Backend) (acc : List (List Row))
    (chunk : List String) : List (List Row) :=
  match backend chunk with
  | none => acc
  | some chunk_df => if chunk_df = [] then acc else acc ++ [chunk_df]

/-- The outcome of one `run_query` call: the concatenated result rows, and the
chunks submitted to the backend in submission order. -/
structure QueryResult where
  rows : List Row
  calls : List (List String)
  deriving Repr, DecidableEq

/-- The method `RevenuePipeline.run_query`: an empty identifier list short-circuits to an
empty result with no backend call; otherwise every chunk is queried in index
order, a raising chunk is skipped, empty chunk results are not appended, and
the collected non-empty results are concatenated in chunk order (an all-empty
collection concatenates to the empty result). -/
def run_query (chunk_size : Nat) (backend : Backend) (user_ids : List String) :
    QueryResult :=
  if user_ids = [] then ⟨[], []⟩
  else
    let cs := chunksOf chunk_size user_ids
    let all_results := cs.foldl (collectChunk backend) []
    ⟨all_results.flatten, cs⟩

/-! ## Pack processing (`process_pack`, `get_pack_csv_paths`) -/

/-- Predicate `startsWithL pat l` is true when `pat` is an initial segment of `l`. -/
def startsWithL : List Char → List Char → Bool
  | [], _ => true
  | _ :: _, [] => false
  | a :: as, b :: bs => a == b && startsWithL as bs

/-- Left-to-right, non-overlapping replacement of a non-empty pattern,
fuelled by the input length. -/
def replaceAllAux (pat rep : List Char) : Nat → List Char → List Char
  | 0, l => l
  | _, [] => []
  | fuel + 1, c :: rest =>
    if startsWithL pat (c :: rest) then
      rep ++ replaceAllAux pat rep fuel ((c :: rest).drop pat.length)
    else c :: replaceAllAux pat rep fuel rest

/-- Python `s.replace(pat, rep)` for a non-empty pattern. -/
def pyReplace (s pat rep : String) : String :=
  ⟨replaceAllAux pat.data rep.data s.data.length s.data⟩

/-- The pack name derived from a configured pack file name in
`get_pack_csv_paths` (two chained `str.replace` calls). -/
def pack_label (csv_file : String) : String :=
  pyReplace (pyReplace csv_file ("_packs_with_ad_ids.csv") (""))
    ("stage1_top_25k_with_ad_ids.csv") ("stage1_top_25k")

/-- The method `RevenuePipeline.get_pack_csv_paths`: for each configured pack file name,
its pack name, the per-cohort file paths of the window, and the file name
itself (`str(Path(main_folder) / cohort / csv_file)` with POSIX separators).
-/
def get_pack_csv_paths (main_folder : String) (pack_types : List String)
    (cohort_group : List String) : List (String × List String × String) :=
  pack_types.map (fun csv_file =>
    (pack_label csv_file,
     cohort_group.map (fun cohort => main_folder ++ "/" ++ cohort ++ "/" ++ csv_file),
     csv_file))

/-- The outcome of one `process_pack` call: the pack's revenue, the identifier
cache afterwards, how many chunk queries were issued to the backend, and the
name of the detail file written under the cohort's output folder (`none` when
nothing was written). -/
structure PackResult where
  revenue : Rat
  cache : Cache
  backendCalls : Nat
  outputFile : Option String
  deriving Repr, DecidableEq

/-- The method `RevenuePipeline.process_pack`: extract the pack's identifiers; an empty
identifier set returns zero revenue with no query and no output file;
otherwise query batch by batch (`batch_size` slices, each chunked by
`run_query`), keep the non-empty batch results, and if any remain, sum the
`product_value_INR` column as the pack revenue and write the concatenated
detail rows to `<pack_name>.csv`. -/
def process_pack (batch_size chunk_size : Nat) (fs : FS) (backend : Backend)
    (cache : Cache) (pack_name : String) (csv_paths : List String) : PackResult :=
  let er := extract_unique_user_ids fs cache csv_paths
  if er.ids = [] then ⟨0, er.cache, 0, none⟩
  else
    let qrs := (chunksOf batch_size er.ids).map
      (fun batch_users => run_query chunk_size backend batch_users)
    let all_batches := (qrs.map (fun q => q.rows)).filter (fun r => !r.isEmpty)
    let calls := (qrs.map (fun q => q.calls.length)).foldl (· + ·) 0
    if all_batches = [] then ⟨0, er.cache, calls, none⟩
    else
      ⟨((all_batches.flatten).map (fun row => row.product_value_INR)).foldl (· + ·) 0,
       er.cache, calls, some (pack_name ++ ".csv")⟩

/-! ## Cohort aggregation (`process_cohort_group`) -/

/-- A Python-dict field table with rational values: assignment replaces the
first binding in place or appends a new one, preserving insertion order. -/
def setField : List (String × Rat) → String → Rat → List (String × Rat)
  | [], k, v => [(k, v)]
  | p :: rest, k, v =>
    if p.1 == k then (k, v) :: rest else p :: setField rest k v

/-- Dictionary lookup in a field table. -/
def getField (m : List (String × Rat)) (k : String) : Option Rat :=
  (m.find? (fun p => p.1 == k)).map (fun p => p.2)

/-- The Cohort Result dictionary
`{"Cohort": label, "Total Revenue": total, "<Pack> Revenue": ...}`, modelled
as a structure (the program never uses a pack name that collides with the two
fixed keys). -/
structure CohortResult where
  cohort : String
  totalRevenue : Rat
  packFields : List (String × Rat)
  deriving Repr, DecidableEq

/-- The revenue field name a pack contributes:
`f"{pack_name.capitalize()} Revenue"`. -/
def packFieldName (pack_name : String) : String :=
  pyCapitalize pack_name ++ " Revenue"

/-- Merging one completed pack task into the accumulating
`(pack_results, total_revenue)` pair: a successful worker's revenue is
recorded under the pack's field name and added to the running total; a worker
that raised is recorded as 0 and the total is left unchanged (the error only
being logged). -/
def workerStep (worker : String → List String → Except Unit Rat)
    (acc : List (String × Rat) × Rat) (pk : String × List String × String) :
    List (String × Rat) × Rat :=
  match worker pk.1 pk.2.1 with
  | .ok revenue => (setField acc.1 (packFieldName pk.1) revenue, acc.2 + revenue)
  | .error _ => (setField acc.1 (packFieldName pk.1) 0, acc.2)

/-- The revenue value recorded for one pack: the worker's result, or 0 when
the worker raised. -/
def recordedRevenue (worker : String → List String → Except Unit Rat)
    (pk : String × List String × String) : Rat :=
  match worker pk.1 pk.2.1 with
  | .ok revenue => revenue
  | .error _ => 0

/-- The method `RevenuePipeline.process_cohort_group` with the per-pack worker
abstracted: `worker pack_name csv_paths` is the outcome `future.result()`
delivers for one pack task (`Except.error` models the task having raised).
The exchange rate never fails to resolve (`get_exchange_rate` is total) and
only shapes the query text, so its value is absorbed into `worker`.
The thread-pool scatter/gather over the packs is modelled as a fold in
catalog order; since every pack writes a distinct dictionary field and the
total-revenue accumulation is commutative, the completion order of the
workers is invisible in the returned record. A cohort label whose date range
does not resolve yields no result (`none`). -/
def process_cohort_group_with (year window_size : Nat) (main_folder : String)
    (pack_types : List String)
    (worker : String → List String → Except Unit Rat)
    (cohort_group : List String) : Option CohortResult :=
  let cohort_label := cohort_group.headI
  match get_date_range year window_size cohort_label with
  | none => none
  | some _ =>
    let packs := get_pack_csv_paths main_folder pack_types cohort_group
    let folded := packs.foldl (workerStep worker) ([], 0)
    some ⟨cohort_label, folded.2, folded.1⟩

/-- One pack task of `process_cohort_group` running the actual
`process_pack` body, with the shared identifier cache threaded through and
the pack's backend chunk queries counted. -/
def cohortPackStep (batch_size chunk_size : Nat) (fs : FS) (backend : Backend)
    (acc : (List (String × Rat) × Rat) × Cache × Nat)
    (pk : String × List String × String) :
    (List (String × Rat) × Rat) × Cache × Nat :=
  let pr := process_pack batch_size chunk_size fs backend acc.2.1 pk.1 pk.2.1
  ((setField acc.1.1 (packFieldName pk.1) pr.revenue, acc.1.2 + pr.revenue),
   pr.cache, acc.2.2 + pr.backendCalls)

/-- The method `RevenuePipeline.process_cohort_group` with each pack task running the
actual `process_pack` body: the shared identifier cache is threaded through
the pack workers, and the backend chunk queries of all packs are counted.
Returns the optional Cohort Result, the cache afterwards, and the total
number of backend queries issued for the window. -/
def process_cohort_group_run (year window_size batch_size chunk_size : Nat)
    (main_folder : String) (pack_types : List String) (fs : FS)
    (backend : Backend) (cache : Cache) (cohort_group : List String) :
    Option CohortResult × Cache × Nat :=
  let cohort_label := cohort_group.headI
  match get_date_range year window_size cohort_label with
  | none => (none, cache, 0)
  | some _ =>
    let packs := get_pack_csv_paths main_folder pack_types cohort_group
    let folded := packs.foldl (cohortPackStep batch_size chunk_size fs backend)
      (([], 0), cache, 0)
    (some ⟨cohort_label, folded.1.2, folded.1.1⟩, folded.2.1, folded.2.2)

/-! ## Orchestrator entry points (`run_full_pipeline`, `run_specific_cohorts`)
-/

/-- What one orchestrator invocation observably did: the ordered Cohort
Results it returns, the cohort groups it handed to `process_cohort_group` in
order, and whether `save_summary` was invoked before returning. -/
structure RunOutcome where
  results : List CohortResult
  processedGroups : List (List String)
  summarySaved : Bool
  deriving Repr, DecidableEq

/-- The method `RevenuePipeline.run_full_pipeline`, over an abstract environment:
`clientOk` is the outcome of the query-backend connection attempt, whose
failure propagates as a run-level exception (`Except.error`); `cohort_folders`
is the discovered folder list; `processGroup` abstracts
`process_cohort_group`'s outcome for a group. Groups are consecutive windows
of `window_size` folders, a trailing group shorter than `window_size` is
never processed, and `save_summary` runs exactly when at least one result was
produced. -/
def run_full_pipeline (window_size : Nat) (clientOk : Bool)
    (cohort_folders : List String)
    (processGroup : List String → Option CohortResult) :
    Except String RunOutcome :=
  if !clientOk then .error ("Failed to initialize BigQuery client")
  else if cohort_folders = [] then .error ("No cohort folders found")
  else
    let groups := (chunksOf window_size cohort_folders).filter
      (fun g => g.length == window_size)
    let results := groups.filterMap processGroup
    .ok ⟨results, groups, !results.isEmpty⟩

/-- The method `RevenuePipeline.run_specific_cohorts`, over the same abstract
environment: the caller-supplied cohort list is grouped into consecutive
windows of `window_size` with no dropping, every group is processed, and the
function returns its results without ever invoking `save_summary`. -/
def run_specific_cohorts (window_size : Nat) (clientOk : Bool)
    (selected_cohorts : List String)
    (processGroup : List String → Option CohortResult) :
    Except String RunOutcome :=
  if !clientOk then .error ("Failed to initialize BigQuery client")
  else if selected_cohorts = [] then .error ("No cohorts selected")
  else
    let groups := chunksOf window_size selected_cohorts
    let results := groups.filterMap processGroup
    .ok ⟨results, groups, false⟩

/-! ## Predicates and concrete fixtures used by the theorems -/

/-- A well-formed identifier list, as the spec's User Identifier Set demands:
duplicate-free; no element empty, whitespace-only, or carrying surrounding
whitespace. -/
abbrev cleanIds (l : List String) : Prop :=
  l.Nodup ∧ ∀ x ∈ l, x ≠ "" ∧ pyStrip x ≠ "" ∧ pyStrip x = x

/-- Every value stored in the identifier cache is a well-formed identifier
list. Holds of the empty cache a fresh pipeline starts with, and is preserved
by every extraction call. -/
abbrev cacheClean (c : Cache) : Prop :=
  ∀ kv ∈ c, cleanIds kv.2

/-- Every value stored in the identifier cache is the empty identifier list
(the reachable cache states when no source file yields any identifier). -/
abbrev cacheNilVals (c : Cache) : Prop :=
  ∀ kv ∈ c, kv.2 = ([] : List String)

/-- The default pack catalog of `PipelineConfig` (its `__post_init__`). -/
def default_pack_types : List String :=
  ["premium_packs_with_ad_ids.csv",
   "career_packs_with_ad_ids.csv",
   "event_packs_with_ad_ids.csv",
   "micro_packs_with_ad_ids.csv",
   "npl_packs_with_ad_ids.csv",
   "stage1_top_25k_with_ad_ids.csv"]

/-- A one-file filesystem: `a.csv` holds duplicates, blanks, a missing value
and padded identifiers. -/
def fsExample : FS := fun p =>
  if p == "a.csv" then
    .table [some " u1 ", some "u1", none, some "  ", some "", some "u2"]
  else .missing

/-- A filesystem with no files at all. -/
def fsNone : FS := fun _ => .missing

/-- A backend on which every chunk query raises. -/
def backendFail : Backend := fun _ => none

/-- A sample result row. -/
def rowEx : Row :=
  ⟨"2026-07-15", "p1", 1, 86, "a"⟩

/-- A backend that answers one specific chunk and raises on any other. -/
def backendEx : Backend := fun c =>
  if c == ["a", "b"] then some [rowEx] else none

/-- A sample Cohort Result. -/
def resEx : CohortResult :=
  ⟨"1_july", 5, []⟩

/-- A cohort-group processor that succeeds on every group with `resEx`. -/
def pgEx : List String → Option CohortResult := fun _ => some resEx

/-- A worker whose `premium` pack task raises and whose other pack tasks
return revenue 7. -/
def workerEx : String → List String → Except Unit Rat := fun n _ =>
  if n == "premium" then .error () else .ok 7

/-- A rate-service reply with HTTP status 500. -/
def resp500 : RateResponse :=
  ⟨500, [("2026-07-15", [("INR", 83)])]⟩

/-- A successful rate-service reply whose two dates carry INR rates 3 and 5
(and one non-INR entry). -/
def respOk : RateResponse :=
  ⟨200, [("2026-07-15", [("INR", 3)]), ("2026-07-16", [("USD", 9), ("INR", 5)])]⟩

/-- A successful rate-service reply containing no INR rate. -/
def respNoInr : RateResponse :=
  ⟨200, [("2026-07-15", [("USD", 9)])]⟩

/-! ## Helper lemmas -/

theorem chunksOfAux_flatten {α : Type _} (k : Nat) (hk : 0 < k) :
    ∀ (fuel : Nat) (l : List α), l.length ≤ fuel →
      (chunksOfAux k fuel l).flatten = l := by
  intro fuel
  induction fuel with
  | zero =>
    intro l hl
    have hnil : l = [] := List.length_eq_zero.mp (Nat.le_zero.mp hl)
    subst hnil
    rfl
  | succ n ih =>
    intro l hl
    cases l with
    | nil => rfl
    | cons a t =>
      have hdrop : ((a :: t).drop k).length ≤ n := by
        rw [List.length_drop]
        simp only [List.length_cons] at hl ⊢
        omega
      simp only [chunksOfAux, List.flatten_cons, ih _ hdrop]
      exact List.take_append_drop k (a :: t)

theorem chunksOf_flatten {α : Type _} (k : Nat) (hk : 0 < k) (l : List α) :
    (chunksOf k l).flatten = l :=
  chunksOfAux_flatten k hk l.length l le_rfl

theorem chunksOfAux_mem {α : Type _} (k : Nat) (hk : 0 < k) :
    ∀ (fuel : Nat) (l : List α) (c : List α), c ∈ chunksOfAux k fuel l →
      c.length ≤ k ∧ c ≠ [] := by
  intro fuel
  induction fuel with
  | zero => intro l c hc; simp [chunksOfAux] at hc
  | succ n ih =>
    intro l c hc
    cases l with
    | nil => simp [chunksOfAux] at hc
    | cons a t =>
      simp only [chunksOfAux, List.mem_cons] at hc
      rcases hc with rfl | hc
      · constructor
        · rw [List.length_take]; omega
        · obtain ⟨k2, rfl⟩ := Nat.exists_eq_succ_of_ne_zero (Nat.pos_iff_ne_zero.mp hk)
          simp [List.take_cons]
      · exact ih _ c hc

theorem chunksOf_mem {α : Type _} (k : Nat) (hk : 0 < k) (l c : List α)
    (hc : c ∈ chunksOf k l) : c.length ≤ k ∧ c ≠ [] :=
  chunksOfAux_mem k hk l.length l c hc

theorem dropWhile_self {α : Type _} (p : α → Bool) (l : List α) :
    (l.dropWhile p).dropWhile p = l.dropWhile p := by
  induction l with
  | nil => rfl
  | cons a t ih =>
    by_cases h : p a
    · simp [List.dropWhile_cons, h, ih]
    · simp [List.dropWhile_cons, h]

theorem head_dropWhile_false {α : Type _} (p : α → Bool) :
    ∀ (l : List α) (a : α), (l.dropWhile p).head? = some a → p a = false := by
  intro l
  induction l with
  | nil => intro a ha; simp at ha
  | cons b t ih =>
    intro a ha
    by_cases h : p b
    · rw [List.dropWhile_cons, if_pos h] at ha
      exact ih a ha
    · rw [List.dropWhile_cons, if_neg h] at ha
      simp only [List.head?_cons, Option.some.injEq] at ha
      subst ha
      exact Bool.of_not_eq_true h

theorem dropWhile_eq_self_of_head {α : Type _} (p : α → Bool) (l : List α)
    (h : ∀ a, l.head? = some a → p a = false) : l.dropWhile p = l := by
  cases l with
  | nil => rfl
  | cons a t => rw [List.dropWhile_cons, if_neg (by simp [h a rfl])]

theorem getLast_dropWhile {α : Type _} (p : α → Bool) :
    ∀ l : List α, l.dropWhile p ≠ [] →
      (l.dropWhile p).getLast? = l.getLast? := by
  intro l
  induction l with
  | nil => intro h; simp at h
  | cons a t ih =>
    intro h
    by_cases hp : p a
    · rw [List.dropWhile_cons, if_pos hp] at h ⊢
      have ht : t ≠ [] := by
        intro he; rw [he] at h; simp at h
      obtain ⟨b, t2, rfl⟩ := List.exists_cons_of_ne_nil ht
      rw [ih h, List.getLast?_cons_cons]
    · rw [List.dropWhile_cons, if_neg hp]

theorem pyStripList_head (l : List Char) (a : Char)
    (h : (pyStripList l).head? = some a) : isPySpace a = false := by
  unfold pyStripList at h
  rw [List.head?_reverse] at h
  have hne : ((l.dropWhile isPySpace).reverse.dropWhile isPySpace) ≠ [] := by
    intro he; rw [he] at h; simp at h
  rw [getLast_dropWhile isPySpace _ hne, List.getLast?_reverse] at h
  exact head_dropWhile_false isPySpace _ a h

theorem pyStripList_getLast (l : List Char) (a : Char)
    (h : (pyStripList l).getLast? = some a) : isPySpace a = false := by
  unfold pyStripList at h
  rw [List.getLast?_reverse] at h
  exact head_dropWhile_false isPySpace _ a h

theorem pyStripList_idem (l : List Char) :
    pyStripList (pyStripList l) = pyStripList l := by
  have h1 : (pyStripList l).dropWhile isPySpace = pyStripList l :=
    dropWhile_eq_self_of_head _ _ (fun a ha => pyStripList_head l a ha)
  have h2 : (pyStripList l).reverse.dropWhile isPySpace = (pyStripList l).reverse :=
    dropWhile_eq_self_of_head _ _ (fun a ha => by
      rw [List.head?_reverse] at ha
      exact pyStripList_getLast l a ha)
  conv_lhs => rw [pyStripList, h1, h2, List.reverse_reverse]

theorem pyStrip_idem (s : String) : pyStrip (pyStrip s) = pyStrip s := by
  unfold pyStrip
  exact congrArg String.mk (pyStripList_idem s.data)

theorem insertNew_nodup (acc : List String) (x : String) (h : acc.Nodup) :
    (insertNew acc x).Nodup := by
  unfold insertNew
  by_cases hx : x ∈ acc
  · rwa [if_pos hx]
  · rw [if_neg hx]
    exact List.nodup_cons.mpr ⟨hx, h⟩

theorem mem_insertNew {acc : List String} {x y : String}
    (h : y ∈ insertNew acc x) : y ∈ acc ∨ y = x := by
  unfold insertNew at h
  by_cases hx : x ∈ acc
  · rw [if_pos hx] at h; exact Or.inl h
  · rw [if_neg hx] at h
    rcases List.mem_cons.mp h with rfl | h2
    · exact Or.inr rfl
    · exact Or.inl h2

theorem foldl_insertNew_nodup (l : List String) :
    ∀ acc : List String, acc.Nodup → (l.foldl insertNew acc).Nodup := by
  induction l with
  | nil => intro acc h; exact h
  | cons a t ih =>
    intro acc h
    exact ih (insertNew acc a) (insertNew_nodup acc a h)

theorem mem_foldl_insertNew (l : List String) :
    ∀ (acc : List String) (y : String),
      y ∈ l.foldl insertNew acc → y ∈ acc ∨ y ∈ l := by
  induction l with
  | nil => intro acc y h; exact Or.inl h
  | cons a t ih =>
    intro acc y h
    rcases ih (insertNew acc a) y h with h2 | h2
    · rcases mem_insertNew h2 with h3 | rfl
      · exact Or.inl h3
      · exact Or.inr (List.mem_cons_self _ _)
    · exact Or.inr (List.mem_cons_of_mem _ h2)

theorem mem_validCells {cells : List (Option String)} {x : String}
    (h : x ∈ validCells cells) : x ≠ "" ∧ pyStrip x = x := by
  unfold validCells at h
  rw [List.mem_filter] at h
  obtain ⟨hm, hne⟩ := h
  rw [List.mem_map] at hm
  obtain ⟨y, _, rfl⟩ := hm
  refine ⟨?_, pyStrip_idem y⟩
  intro he
  rw [he] at hne
  simp at hne

theorem cacheLookup_mem {c : Cache} {k : List String} {v : List String}
    (h : cacheLookup c k = some v) : ∃ kv ∈ c, kv.2 = v := by
  unfold cacheLookup at h
  cases hf : c.find? (fun p => p.1 == k) with
  | none => rw [hf] at h; simp at h
  | some kv =>
    rw [hf] at h
    simp at h
    exact ⟨kv, List.mem_of_find?_eq_some hf, h⟩

theorem extractStep_nodup (fs : FS) (acc : List String × Nat) (p : String)
    (h : acc.1.Nodup) : ((extractStep fs acc p).1).Nodup := by
  unfold extractStep
  cases fs p with
  | missing => exact h
  | unreadable => exact h
  | table cells => exact foldl_insertNew_nodup _ _ h

theorem mem_extractStep {fs : FS} {acc : List String × Nat} {p y : String}
    (h : y ∈ (extractStep fs acc p).1) :
    y ∈ acc.1 ∨ (y ≠ "" ∧ pyStrip y = y) := by
  unfold extractStep at h
  cases hc : fs p with
  | missing => rw [hc] at h; exact Or.inl h
  | unreadable => rw [hc] at h; exact Or.inl h
  | table cells =>
    rw [hc] at h
    rcases mem_foldl_insertNew _ _ _ h with h2 | h2
    · exact Or.inl h2
    · exact Or.inr (mem_validCells h2)

theorem extractFold_nodup (fs : FS) (paths : List String) :
    ∀ acc : List String × Nat, acc.1.Nodup →
      ((paths.foldl (extractStep fs) acc).1).Nodup := by
  induction paths with
  | nil => intro acc h; exact h
  | cons p t ih =>
    intro acc h
    exact ih _ (extractStep_nodup fs acc p h)

theorem mem_extractFold (fs : FS) (paths : List String) :
    ∀ (acc : List String × Nat) (y : String),
      y ∈ (paths.foldl (extractStep fs) acc).1 →
      y ∈ acc.1 ∨ (y ≠ "" ∧ pyStrip y = y) := by
  induction paths with
  | nil => intro acc y h; exact Or.inl h
  | cons p t ih =>
    intro acc y h
    rcases ih _ y h with h2 | h2
    · exact mem_extractStep h2
    · exact Or.inr h2

theorem extract_hit (fs : FS) (cache : Cache) (paths : List String)
    (v : List String) (h : cacheLookup cache (sortKey paths) = some v) :
    extract_unique_user_ids fs cache paths = ⟨v, cache, 0⟩ := by
  simp only [extract_unique_user_ids]
  rw [h]

theorem extract_cache_hit (fs : FS) (cache : Cache) (paths : List String) :
    cacheLookup (extract_unique_user_ids fs cache paths).cache (sortKey paths) =
      some (extract_unique_user_ids fs cache paths).ids := by
  simp only [extract_unique_user_ids]
  split
  next v hl => exact hl
  next hl => simp [cacheLookup]

/-! ## C8 and C9: identifier extraction -/

/-- C9: for every filesystem, reachable cache state and list of source files,
the extraction result has no empty entry, no whitespace-only entry and no
duplicate entry, and every retained identifier equals its own trim; the new
cache state keeps this invariant (so it holds at every reachable state,
starting from the empty cache of a fresh pipeline). -/
theorem C9_extraction_clean (fs : FS) (cache : Cache) (paths : List String)
    (hc : cacheClean cache) :
    cleanIds (extract_unique_user_ids fs cache paths).ids ∧
    cacheClean (extract_unique_user_ids fs cache paths).cache := by
  simp only [extract_unique_user_ids]
  split
  next v hl =>
    obtain ⟨kv, hmem, hv⟩ := cacheLookup_mem hl
    have := hc kv hmem
    rw [hv] at this
    exact ⟨this, hc⟩
  next hl =>
    have hclean : cleanIds ((paths.foldl (extractStep fs) ([], 0)).1.filter
        (fun uid => !(uid == "") && !(pyStrip uid == ""))) := by
      constructor
      · exact List.Nodup.filter _ (extractFold_nodup fs paths ([], 0) List.nodup_nil)
      · intro x hx
        rw [List.mem_filter] at hx
        obtain ⟨hxm, hxf⟩ := hx
        rcases mem_extractFold fs paths ([], 0) x hxm with h2 | h2
        · simp at h2
        · simp only [Bool.and_eq_true, Bool.not_eq_true', beq_eq_false_iff_ne] at hxf
          exact ⟨h2.1, hxf.2, h2.2⟩
    refine ⟨hclean, ?_⟩
    intro kv hkv
    rcases List.mem_cons.mp hkv with rfl | h2
    · exact hclean
    · exact hc kv h2

/-- C9 witness: a concrete extraction over a file holding duplicates, blanks,
a missing value and padded identifiers yields a clean identifier list. -/
theorem C9_extraction_clean_witness :
    cleanIds (extract_unique_user_ids fsExample [] ["a.csv", "b.csv"]).ids :=
  (C9_extraction_clean fsExample [] ["a.csv", "b.csv"] (by decide)).1

/-- C8: calling `extract_unique_user_ids` a second time with the identical
path list returns the same identifier list, leaves the cache unchanged and
reads no source file (the result is served from the cache entry keyed by the
sorted path tuple). -/
theorem C8_extraction_memoized (fs : FS) (cache : Cache) (paths : List String) :
    extract_unique_user_ids fs (extract_unique_user_ids fs cache paths).cache paths =
      ⟨(extract_unique_user_ids fs cache paths).ids,
       (extract_unique_user_ids fs cache paths).cache, 0⟩ :=
  extract_hit fs _ paths _ (extract_cache_hit fs cache paths)

/-! ## C2 and C10: cohort-label date resolution -/

theorem monthLookup_range {s : String} {mo : Nat} (h : monthLookup s = some mo) :
    1 ≤ mo ∧ mo ≤ 12 := by
  unfold monthLookup at h
  cases hf : month_map.find? (fun p => p.1 == s) with
  | none => rw [hf] at h; simp at h
  | some p =>
    rw [hf] at h
    simp at h
    have hmem : p ∈ month_map := List.mem_of_find?_eq_some hf
    rw [← h]
    fin_cases hmem <;> omega

/-- C2 fails as stated: "february" is a recognized month name and 31 is an
integer between 1 and 31, yet resolving the label "31_february" does not
succeed — `datetime` raises on the out-of-range day and `get_date_range`
returns `(None, None)`. -/
theorem C2_counterexample :
    monthLookup (pyLower ("february")) = some 2 ∧
    (1 ≤ 31 ∧ 31 ≤ 31) ∧
    get_date_range 2026 3 "31_february" = none := by
  refine ⟨by decide, by decide, by decide⟩

/-- C2 (amended): for every cohort label splitting into a day token and a
month token with a recognized month (any case), if the day is a valid
calendar day of that month in the current year (whereas days 1–31 that
overflow the month, such as 31 February, make resolution fail), then
resolution succeeds and returns the formatted start date together with the
end date lying `window_size - 1` days after it. -/
theorem C2_date_range_valid_day (year w d mo : Nat) (label ds ms : String)
    (hsplit : pySplit (Char.ofNat 95) label = [ds, ms])
    (hday : pyInt ds = some (d : Int))
    (hmonth : monthLookup (pyLower ms) = some mo)
    (hy1 : 1 ≤ year) (hy2 : year ≤ 9999)
    (hd1 : 1 ≤ d) (hd2 : d ≤ daysInMonth year mo)
    (hov : (addDays ⟨year, mo, d⟩ (w - 1)).year ≤ 9999) :
    get_date_range year w label =
      some (formatDate ⟨year, mo, d⟩, formatDate (addDays ⟨year, mo, d⟩ (w - 1))) := by
  obtain ⟨hm1, hm2⟩ := monthLookup_range hmonth
  unfold get_date_range
  rw [hsplit]
  simp only [hday, hmonth]
  have hmk : mkDatetime year mo (d : Int) = some ⟨year, mo, d⟩ := by
    unfold mkDatetime
    rw [if_pos]
    · simp
    · refine ⟨hy1, hy2, hm1, hm2, ?_, ?_⟩
      · exact_mod_cast hd1
      · exact_mod_cast hd2
  rw [hmk]
  simp only [hov, if_pos]

/-- C2 witness: the amended theorem applied to the concrete label "15_july"
in year 2026 with window size 3. -/
theorem C2_date_range_valid_day_witness :
    get_date_range 2026 3 "15_july" = some ("2026-07-15", "2026-07-17") := by
  have h := C2_date_range_valid_day 2026 3 15 7 "15_july" "15" "july"
    (by decide) (by decide) (by decide) (by decide) (by decide) (by decide)
    (by decide) (by decide)
  exact h.trans (by decide)

/-- C10: date-range resolution is total — for every label (and every year and
window size) it returns either a pair of date strings or `none`, never
raising; in particular, failures beyond the three named kinds, such as a day
out of range for the month ("31_february") or a day of zero ("0_july"), are
absorbed into `none` exactly like the named ones. -/
theorem C10_date_range_total :
    (∀ (year w : Nat) (label : String),
        get_date_range year w label = none ∨
        ∃ s e, get_date_range year w label = some (s, e)) ∧
    get_date_range 2026 3 "31_february" = none ∧
    get_date_range 2026 1 "0_july" = none := by
  refine ⟨fun year w label => ?_, by decide, by decide⟩
  cases h : get_date_range year w label with
  | none => exact Or.inl rfl
  | some p => exact Or.inr ⟨p.1, p.2, rfl⟩

/-! ## C5: exchange-rate resolution -/

/-- C5: the exchange-rate resolver never raises. With live rates disabled it
returns the fallback rate without a network call; with live rates enabled it
returns the fallback rate on a network error or exception, on a non-200
status, and on a reply with no INR rates; on a successful reply with INR
rates it returns their average (sum divided by count). -/
theorem C5_exchange_rate_resilient (fallback : Rat) :
    (∀ net, get_exchange_rate false fallback net = (fallback, false)) ∧
    get_exchange_rate true fallback none = (fallback, true) ∧
    (∀ resp, resp.status_code ≠ 200 →
        get_exchange_rate true fallback (some resp) = (fallback, true)) ∧
    (∀ resp, inrValues resp = [] →
        get_exchange_rate true fallback (some resp) = (fallback, true)) ∧
    (∀ resp, resp.status_code = 200 → inrValues resp ≠ [] →
        get_exchange_rate true fallback (some resp) =
          (((inrValues resp).foldl (· + ·) 0) / ((inrValues resp).length : Rat),
           true)) := by
  refine ⟨fun net => rfl, rfl, ?_, ?_, ?_⟩
  · intro resp hstat
    simp [get_exchange_rate, hstat]
  · intro resp hinr
    simp [get_exchange_rate, hinr]
  · intro resp hstat hinr
    simp [get_exchange_rate, hstat, hinr]

/-- C5 witness: concrete instances of all five branches — disabled live
rates, a network error, an HTTP 500 reply, a reply with no INR rates, and a
successful reply with rates 3 and 5 averaging to 4. -/
theorem C5_exchange_rate_resilient_witness :
    get_exchange_rate false 2 none = (2, false) ∧
    get_exchange_rate true 2 none = (2, true) ∧
    get_exchange_rate true 2 (some resp500) = (2, true) ∧
    get_exchange_rate true 2 (some respNoInr) = (2, true) ∧
    get_exchange_rate true 2 (some respOk) = (4, true) := by
  have h := C5_exchange_rate_resilient 2
  refine ⟨h.1 none, h.2.1, h.2.2.1 resp500 (by decide), ?_, ?_⟩
  · exact h.2.2.2.1 respNoInr (by rfl)
  · have hOk := h.2.2.2.2 respOk (by rfl) (by simp [inrValues, jsonLookup, respOk])
    rw [hOk]
    have hv : inrValues respOk = [3, 5] := rfl
    rw [hv]
    norm_num

/-! ## C6: query batching -/

theorem collectChunk_fold_flatten (backend : Backend) (cs : List (List String)) :
    ∀ acc : List (List Row),
      (cs.foldl (collectChunk backend) acc).flatten =
        acc.flatten ++ (cs.map (chunkRows backend)).flatten := by
  induction cs with
  | nil => intro acc; simp
  | cons c t ih =>
    intro acc
    rw [List.foldl_cons, ih, List.map_cons, List.flatten_cons]
    have hstep : (collectChunk backend acc c).flatten =
        acc.flatten ++ chunkRows backend c := by
      unfold collectChunk chunkRows
      cases backend c with
      | none => simp
      | some chunk_df =>
        by_cases he : chunk_df = []
        · simp [he]
        · simp [he]
    rw [hstep, List.append_assoc]

/-- C6: for every identifier list and backend, `run_query` submits exactly
the consecutive chunks of the input (each non-empty and holding at most
`chunk_size` identifiers, concatenating back to the input) to the backend in
index order; its result rows are the concatenation, in chunk-submission
order, of the per-chunk result sets with failing chunks contributing nothing;
an empty input yields the empty result with no backend call, and failing all
chunks yields the empty result rather than an error. -/
theorem C6_run_query_batching (chunk_size : Nat) (backend : Backend)
    (ids : List String) (hk : 0 < chunk_size) :
    (∀ c ∈ (run_query chunk_size backend ids).calls,
        c.length ≤ chunk_size ∧ c ≠ []) ∧
    ((run_query chunk_size backend ids).calls).flatten = ids ∧
    (run_query chunk_size backend ids).rows =
      (((run_query chunk_size backend ids).calls).map (chunkRows backend)).flatten ∧
    (ids = [] → run_query chunk_size backend ids = ⟨[], []⟩) ∧
    ((∀ c ∈ (run_query chunk_size backend ids).calls, backend c = none) →
        (run_query chunk_size backend ids).rows = []) := by
  by_cases hids : ids = []
  · subst hids
    refine ⟨?_, ?_, ?_, fun _ => rfl, fun _ => rfl⟩ <;> simp [run_query]
  · have hq : run_query chunk_size backend ids =
        ⟨((chunksOf chunk_size ids).foldl (collectChunk backend) []).flatten,
         chunksOf chunk_size ids⟩ := by
      unfold run_query
      rw [if_neg hids]
    rw [hq]
    have hrows : (((chunksOf chunk_size ids).foldl (collectChunk backend) [])).flatten =
        ((chunksOf chunk_size ids).map (chunkRows backend)).flatten := by
      rw [collectChunk_fold_flatten]
      simp
    refine ⟨?_, chunksOf_flatten chunk_size hk ids, hrows, fun he => absurd he hids, ?_⟩
    · intro c hc
      exact chunksOf_mem chunk_size hk ids c hc
    · intro hall
      rw [hrows]
      have : (chunksOf chunk_size ids).map (chunkRows backend) =
          (chunksOf chunk_size ids).map (fun _ => ([] : List Row)) := by
        apply List.map_congr_left
        intro c hc
        unfold chunkRows
        rw [hall c hc]
      rw [this]
      simp

/-- C6 witness: with chunk size 2 the three identifiers are split into the
chunks `[a, b]` and `[c]`, submitted in order; the backend answers the first
chunk and raises on the second, and the result concatenates the surviving
rows. -/
theorem C6_run_query_batching_witness :
    ((run_query 2 backendEx ["a", "b", "c"]).calls).flatten = ["a", "b", "c"] :=
  (C6_run_query_batching 2 backendEx ["a", "b", "c"] (by decide)).2.1

/-! ## C1 and C3: orchestrator entry points -/

theorem run_full_pipeline_ok {window_size : Nat} {clientOk : Bool}
    {folders : List String} {pg : List String → Option CohortResult}
    {out : RunOutcome}
    (h : run_full_pipeline window_size clientOk folders pg = .ok out) :
    out = ⟨((chunksOf window_size folders).filter
              (fun g => g.length == window_size)).filterMap pg,
           (chunksOf window_size folders).filter (fun g => g.length == window_size),
           !(((chunksOf window_size folders).filter
              (fun g => g.length == window_size)).filterMap pg).isEmpty⟩ := by
  unfold run_full_pipeline at h
  by_cases hc : clientOk
  · rw [hc] at h
    by_cases hf : folders = []
    · rw [if_neg (by simp), if_pos hf] at h
      exact absurd h (by simp)
    · rw [if_neg (by simp), if_neg hf] at h
      simpa using h.symm
  · simp only [Bool.not_eq_true] at hc
    rw [hc] at h
    exact absurd h (by simp)

theorem run_specific_cohorts_ok {window_size : Nat} {clientOk : Bool}
    {selected : List String} {pg : List String → Option CohortResult}
    {out : RunOutcome}
    (h : run_specific_cohorts window_size clientOk selected pg = .ok out) :
    out = ⟨(chunksOf window_size selected).filterMap pg,
           chunksOf window_size selected, false⟩ := by
  unfold run_specific_cohorts at h
  by_cases hc : clientOk
  · rw [hc] at h
    by_cases hf : selected = []
    · rw [if_neg (by simp), if_pos hf] at h
      exact absurd h (by simp)
    · rw [if_neg (by simp), if_neg hf] at h
      simpa using h.symm
  · simp only [Bool.not_eq_true] at hc
    rw [hc] at h
    exact absurd h (by simp)

/-- C1 counterexample: the specific-cohorts entry point produces a non-empty
result list for the single cohort "1_july" yet returns with the summary never
persisted (`run_specific_cohorts` contains no `save_summary` call). -/
theorem C1_counterexample :
    run_specific_cohorts 1 true ["1_july"] pgEx =
      .ok ⟨[resEx], [["1_july"]], false⟩ ∧
    ([resEx] : List CohortResult) ≠ [] :=
  ⟨rfl, List.cons_ne_nil _ _⟩

/-- C1 (amended): the full-pipeline entry point persists the final summary
before returning whenever at least one Cohort Result was produced; the
specific-cohorts entry point never persists a summary, whatever it
produced. -/
theorem C1_summary_persistence (window_size : Nat) (clientOk : Bool)
    (folders selected : List String)
    (pg : List String → Option CohortResult) :
    (∀ out, run_full_pipeline window_size clientOk folders pg = .ok out →
        out.results ≠ [] → out.summarySaved = true) ∧
    (∀ out, run_specific_cohorts window_size clientOk selected pg = .ok out →
        out.summarySaved = false) := by
  constructor
  · intro out hok hne
    rw [run_full_pipeline_ok hok] at hne ⊢
    simpa using hne
  · intro out hok
    rw [run_specific_cohorts_ok hok]

/-- C1 witness: concrete runs of both entry points on the single cohort
"1_july" — the full pipeline produces one result and saves the summary, the
specific-cohorts run produces one result and does not. -/
theorem C1_summary_persistence_witness :
    (⟨[resEx], [["1_july"]], true⟩ : RunOutcome).summarySaved = true ∧
    (⟨[resEx], [["1_july"]], false⟩ : RunOutcome).summarySaved = false :=
  ⟨(C1_summary_persistence 1 true ["1_july"] ["1_july"] pgEx).1
      ⟨[resEx], [["1_july"]], true⟩ rfl (List.cons_ne_nil _ _),
   (C1_summary_persistence 1 true ["1_july"] ["1_july"] pgEx).2
      ⟨[resEx], [["1_july"]], false⟩ rfl⟩

/-- C3: in the full-pipeline entry point the processed groups are exactly the
consecutive windows of full length `window_size` — a shorter trailing group
is dropped, never partially processed — while the specific-cohorts entry
point processes every consecutive window, whose concatenation gives back the
whole selected list (nothing dropped). -/
theorem C3_window_grouping (window_size : Nat) (clientOk : Bool)
    (folders selected : List String)
    (pg : List String → Option CohortResult) (hw : 0 < window_size) :
    (∀ out, run_full_pipeline window_size clientOk folders pg = .ok out →
        out.processedGroups =
          (chunksOf window_size folders).filter (fun g => g.length == window_size) ∧
        ∀ g ∈ out.processedGroups, g.length = window_size) ∧
    (∀ out, run_specific_cohorts window_size clientOk selected pg = .ok out →
        out.processedGroups = chunksOf window_size selected ∧
        out.processedGroups.flatten = selected) := by
  constructor
  · intro out hok
    rw [run_full_pipeline_ok hok]
    refine ⟨rfl, ?_⟩
    intro g hg
    rw [List.mem_filter] at hg
    exact beq_iff_eq.mp hg.2
  · intro out hok
    rw [run_specific_cohorts_ok hok]
    exact ⟨rfl, chunksOf_flatten window_size hw selected⟩

/-- C3 witness: five labels with window size 2 — the full pipeline processes
exactly the two full groups and drops the fifth label's group of one, while
the specific-cohorts entry point keeps all three groups, including the short
trailing one. -/
theorem C3_window_grouping_witness :
    (⟨[resEx, resEx],
      [["1_july", "2_july"], ["3_july", "4_july"]], true⟩ : RunOutcome).processedGroups =
        [["1_july", "2_july"], ["3_july", "4_july"]] ∧
    (⟨[resEx, resEx, resEx],
      [["1_july", "2_july"], ["3_july", "4_july"], ["5_july"]], false⟩ :
        RunOutcome).processedGroups.flatten =
      ["1_july", "2_july", "3_july", "4_july", "5_july"] := by
  have h := C3_window_grouping 2 true
    ["1_july", "2_july", "3_july", "4_july", "5_july"]
    ["1_july", "2_july", "3_july", "4_july", "5_july"] pgEx (by decide)
  refine ⟨?_, ?_⟩
  · rw [(h.1 ⟨[resEx, resEx], [["1_july", "2_july"], ["3_july", "4_july"]], true⟩ rfl).1]
    rfl
  · exact (h.2 ⟨[resEx, resEx, resEx],
      [["1_july", "2_july"], ["3_july", "4_july"], ["5_july"]], false⟩ rfl).2

/-! ## C4: pack-failure isolation in cohort aggregation -/

theorem getField_setField_self (m : List (String × Rat)) (k : String) (v : Rat) :
    getField (setField m k v) k = some v := by
  induction m with
  | nil => simp [setField, getField]
  | cons p rest ih =>
    by_cases h : p.1 = k
    · simp [setField, getField, h]
    · simp only [setField]
      rw [if_neg (by simpa using h)]
      unfold getField at ih ⊢
      rw [List.find?_cons_of_neg _ (by simpa using h)]
      exact ih

theorem getField_setField_ne (m : List (String × Rat)) (k k2 : String) (v : Rat)
    (h : k ≠ k2) : getField (setField m k2 v) k = getField m k := by
  induction m with
  | nil =>
    simp only [setField]
    unfold getField
    rw [List.find?_cons_of_neg _ (by simpa using fun he => h he.symm)]
  | cons p rest ih =>
    by_cases hp : p.1 = k2
    · simp only [setField]
      rw [if_pos (by simpa using hp)]
      unfold getField
      rw [List.find?_cons_of_neg _ (by simpa using fun he => h he.symm),
        List.find?_cons_of_neg _
          (by simp only [hp]; simpa using fun he => h he.symm)]
    · simp only [setField]
      rw [if_neg (by simpa using hp)]
      by_cases hpk : p.1 = k
      · unfold getField
        rw [List.find?_cons_of_pos _ (by simpa using hpk),
          List.find?_cons_of_pos _ (by simpa using hpk)]
      · unfold getField at ih ⊢
        rw [List.find?_cons_of_neg _ (by simpa using hpk),
          List.find?_cons_of_neg _ (by simpa using hpk)]
        exact ih

theorem mem_setField :
    ∀ (m : List (String × Rat)) (k : String) (v : Rat) (kv : String × Rat),
      kv ∈ setField m k v → kv ∈ m ∨ kv = (k, v) := by
  intro m
  induction m with
  | nil =>
    intro k v kv h
    simp only [setField] at h
    exact Or.inr (by simpa using h)
  | cons p rest ih =>
    intro k v kv h
    simp only [setField] at h
    by_cases hp : p.1 = k
    · rw [if_pos (by simpa using hp)] at h
      rcases List.mem_cons.mp h with rfl | h2
      · exact Or.inr rfl
      · exact Or.inl (List.mem_cons_of_mem _ h2)
    · rw [if_neg (by simpa using hp)] at h
      rcases List.mem_cons.mp h with rfl | h2
      · exact Or.inl (List.mem_cons_self _ _)
      · rcases ih k v kv h2 with h3 | h3
        · exact Or.inl (List.mem_cons_of_mem _ h3)
        · exact Or.inr h3

theorem workerStep_fst (worker : String → List String → Except Unit Rat)
    (acc : List (String × Rat) × Rat) (pk : String × List String × String) :
    (workerStep worker acc pk).1 =
      setField acc.1 (packFieldName pk.1) (recordedRevenue worker pk) := by
  unfold workerStep recordedRevenue
  cases worker pk.1 pk.2.1 <;> rfl

theorem workerFold_frozen (worker : String → List String → Except Unit Rat)
    (k : String) :
    ∀ (packs : List (String × List String × String)),
      (∀ pk ∈ packs, packFieldName pk.1 ≠ k) →
      ∀ acc : List (String × Rat) × Rat,
        getField (packs.foldl (workerStep worker) acc).1 k = getField acc.1 k := by
  intro packs
  induction packs with
  | nil => intro _ acc; rfl
  | cons q rest ih =>
    intro hk acc
    rw [List.foldl_cons, ih (fun pk hpk => hk pk (List.mem_cons_of_mem _ hpk)),
      workerStep_fst]
    exact getField_setField_ne _ _ _ _
      (fun he => hk q (List.mem_cons_self _ _) he.symm)

theorem workerFold_getField (worker : String → List String → Except Unit Rat) :
    ∀ (packs : List (String × List String × String)),
      (packs.map (fun pk => packFieldName pk.1)).Nodup →
      ∀ (acc : List (String × Rat) × Rat), ∀ pk ∈ packs,
        getField (packs.foldl (workerStep worker) acc).1 (packFieldName pk.1) =
          some (recordedRevenue worker pk) := by
  intro packs
  induction packs with
  | nil => intro _ acc pk hpk; simp at hpk
  | cons q rest ih =>
    intro hnd acc pk hpk
    rw [List.map_cons, List.nodup_cons] at hnd
    obtain ⟨hqnot, hndrest⟩ := hnd
    rw [List.foldl_cons]
    rcases List.mem_cons.mp hpk with rfl | hpk2
    · have hfz : ∀ pk2 ∈ rest, packFieldName pk2.1 ≠ packFieldName pk.1 := by
        intro pk2 hpk2 he
        exact hqnot (he ▸ List.mem_map_of_mem (fun x => packFieldName x.1) hpk2)
      rw [workerFold_frozen worker _ rest hfz (workerStep worker acc pk),
        workerStep_fst]
      exact getField_setField_self _ _ _
    · exact ih hndrest _ pk hpk2

/-- C4: for a cohort window whose date range resolves (the rate always
resolves, see C5), if exactly one pack's worker raises while every other
pack's worker returns a revenue, the Cohort Result is still returned; its
field for the failed pack is 0, and every other pack's field carries that
pack's worker result — sibling packs are not aborted. -/
theorem C4_pack_failure_isolated (year window_size : Nat) (main_folder : String)
    (pack_types : List String)
    (worker : String → List String → Except Unit Rat)
    (cohort_group : List String) (de : String × String) (fail_pack : String)
    (r : String → Rat)
    (hd : get_date_range year window_size cohort_group.headI = some de)
    (hnd : ((get_pack_csv_paths main_folder pack_types cohort_group).map
        (fun pk => packFieldName pk.1)).Nodup)
    (hw : ∀ pk ∈ get_pack_csv_paths main_folder pack_types cohort_group,
        if pk.1 = fail_pack then worker pk.1 pk.2.1 = .error ()
        else worker pk.1 pk.2.1 = .ok (r pk.1)) :
    ∃ res, process_cohort_group_with year window_size main_folder pack_types
        worker cohort_group = some res ∧
      ∀ pk ∈ get_pack_csv_paths main_folder pack_types cohort_group,
        getField res.packFields (packFieldName pk.1) =
          some (if pk.1 = fail_pack then 0 else r pk.1) := by
  refine ⟨⟨cohort_group.headI,
    ((get_pack_csv_paths main_folder pack_types cohort_group).foldl
      (workerStep worker) ([], 0)).2,
    ((get_pack_csv_paths main_folder pack_types cohort_group).foldl
      (workerStep worker) ([], 0)).1⟩, ?_, ?_⟩
  · simp only [process_cohort_group_with]
    rw [hd]
  · intro pk hpk
    rw [workerFold_getField worker _ hnd ([], 0) pk hpk]
    have hwpk := hw pk hpk
    by_cases hf : pk.1 = fail_pack
    · rw [if_pos hf] at hwpk ⊢
      unfold recordedRevenue
      rw [hwpk]
    · rw [if_neg hf] at hwpk ⊢
      unfold recordedRevenue
      rw [hwpk]

/-- C4 witness: a two-pack catalog where the `premium` worker raises and the
`career` worker returns 7 — the cohort result is produced with the premium
field 0 and the career field 7. -/
theorem C4_pack_failure_isolated_witness :
    ∃ res, process_cohort_group_with 2026 1 "m"
        ["premium_packs_with_ad_ids.csv", "career_packs_with_ad_ids.csv"]
        workerEx ["1_july"] = some res ∧
      ∀ pk ∈ get_pack_csv_paths "m"
          ["premium_packs_with_ad_ids.csv", "career_packs_with_ad_ids.csv"]
          ["1_july"],
        getField res.packFields (packFieldName pk.1) =
          some (if pk.1 = "premium" then 0 else (fun _ => (7 : Rat)) pk.1) :=
  C4_pack_failure_isolated 2026 1 "m"
    ["premium_packs_with_ad_ids.csv", "career_packs_with_ad_ids.csv"]
    workerEx ["1_july"] ("2026-07-01", "2026-07-01") "premium" (fun _ => 7)
    (by decide) (by decide)
    (by intro pk hpk; fin_cases hpk <;> simp [workerEx])

/-! ## C7: empty identifier sets cause no queries and no files -/

theorem extractFold_ids_nil (fs : FS) :
    ∀ (paths : List String), (∀ p ∈ paths, fileValidIds (fs p) = []) →
      ∀ acc : List String × Nat, (paths.foldl (extractStep fs) acc).1 = acc.1 := by
  intro paths
  induction paths with
  | nil => intro _ acc; rfl
  | cons p t ih =>
    intro hp acc
    rw [List.foldl_cons, ih (fun q hq => hp q (List.mem_cons_of_mem _ hq))]
    have h := hp p (List.mem_cons_self _ _)
    unfold extractStep
    cases hc : fs p with
    | missing => rfl
    | unreadable => rfl
    | table cells =>
      rw [hc] at h
      simp only [fileValidIds] at h
      simp [h]

theorem extract_nil (fs : FS) (cache : Cache) (paths : List String)
    (hfs : ∀ p ∈ paths, fileValidIds (fs p) = [])
    (hc : cacheNilVals cache) :
    (extract_unique_user_ids fs cache paths).ids = [] ∧
    cacheNilVals (extract_unique_user_ids fs cache paths).cache := by
  simp only [extract_unique_user_ids]
  split
  next v hl =>
    obtain ⟨kv, hmem, hv⟩ := cacheLookup_mem hl
    refine ⟨?_, hc⟩
    show v = []
    rw [← hv]
    exact hc kv hmem
  next hl =>
    have hids : (paths.foldl (extractStep fs) ([], 0)).1 = [] :=
      extractFold_ids_nil fs paths hfs ([], 0)
    constructor
    · show List.filter _ _ = []
      rw [hids]
      rfl
    · intro kv hkv
      rcases List.mem_cons.mp hkv with rfl | h2
      · show List.filter _ _ = []
        rw [hids]
        rfl
      · exact hc kv h2

theorem process_pack_empty (batch_size chunk_size : Nat) (fs : FS)
    (backend : Backend) (cache : Cache) (pack_name : String)
    (csv_paths : List String)
    (h : (extract_unique_user_ids fs cache csv_paths).ids = []) :
    process_pack batch_size chunk_size fs backend cache pack_name csv_paths =
      ⟨0, (extract_unique_user_ids fs cache csv_paths).cache, 0, none⟩ := by
  simp only [process_pack]
  rw [if_pos h]

theorem cohortFold_zero (batch_size chunk_size : Nat) (fs : FS)
    (backend : Backend) :
    ∀ (packs : List (String × List String × String)),
      (∀ pk ∈ packs, ∀ p ∈ pk.2.1, fileValidIds (fs p) = []) →
      ∀ acc : (List (String × Rat) × Rat) × Cache × Nat,
        (∀ kv ∈ acc.1.1, kv.2 = (0 : Rat)) → cacheNilVals acc.2.1 →
        ∃ fields c2,
          packs.foldl (cohortPackStep batch_size chunk_size fs backend) acc =
            ((fields, acc.1.2), c2, acc.2.2) ∧
          (∀ kv ∈ fields, kv.2 = (0 : Rat)) ∧ cacheNilVals c2 := by
  intro packs
  induction packs with
  | nil =>
    intro _ acc hf hcache
    exact ⟨acc.1.1, acc.2.1, rfl, hf, hcache⟩
  | cons q rest ih =>
    intro hq acc hf hcache
    have hext := extract_nil fs acc.2.1 q.2.1
      (hq q (List.mem_cons_self _ _)) hcache
    have hpp := process_pack_empty batch_size chunk_size fs backend
      acc.2.1 q.1 q.2.1 hext.1
    have hstep : cohortPackStep batch_size chunk_size fs backend acc q =
        ((setField acc.1.1 (packFieldName q.1) 0, acc.1.2),
         (extract_unique_user_ids fs acc.2.1 q.2.1).cache, acc.2.2) := by
      unfold cohortPackStep
      rw [hpp]
      simp
    rw [List.foldl_cons, hstep]
    have hf2 : ∀ kv ∈ setField acc.1.1 (packFieldName q.1) (0 : Rat),
        kv.2 = (0 : Rat) := by
      intro kv hkv
      rcases mem_setField _ _ _ kv hkv with h2 | rfl
      · exact hf kv h2
      · rfl
    obtain ⟨fields, c2, heq, hfz, hcz⟩ :=
      ih (fun pk hpk => hq pk (List.mem_cons_of_mem _ hpk))
        ((setField acc.1.1 (packFieldName q.1) 0, acc.1.2),
         (extract_unique_user_ids fs acc.2.1 q.2.1).cache, acc.2.2)
        hf2 hext.2
    exact ⟨fields, c2, heq, hfz, hcz⟩

/-- C7: a pack whose extracted identifier set is empty returns revenue 0,
issues no backend query and writes no output file; consequently, for a
cohort window whose date range resolves but in which no source file of any
pack yields a single identifier, the Cohort Result is still produced with
total revenue 0, all pack fields 0, and not one backend call is made. -/
theorem C7_empty_ids_no_queries (batch_size chunk_size year window_size : Nat)
    (fs : FS) (backend : Backend) :
    (∀ (cache : Cache) (pack_name : String) (csv_paths : List String),
        (extract_unique_user_ids fs cache csv_paths).ids = [] →
        process_pack batch_size chunk_size fs backend cache pack_name csv_paths =
          ⟨0, (extract_unique_user_ids fs cache csv_paths).cache, 0, none⟩) ∧
    (∀ (main_folder : String) (pack_types : List String) (cache : Cache)
        (cohort_group : List String) (de : String × String),
        get_date_range year window_size cohort_group.headI = some de →
        (∀ pk ∈ get_pack_csv_paths main_folder pack_types cohort_group,
            ∀ p ∈ pk.2.1, fileValidIds (fs p) = []) →
        cacheNilVals cache →
        ∃ fields c2,
          process_cohort_group_run year window_size batch_size chunk_size
              main_folder pack_types fs backend cache cohort_group =
            (some ⟨cohort_group.headI, 0, fields⟩, c2, 0) ∧
          ∀ kv ∈ fields, kv.2 = (0 : Rat)) := by
  constructor
  · exact fun cache pack_name csv_paths h =>
      process_pack_empty batch_size chunk_size fs backend cache pack_name
        csv_paths h
  · intro main_folder pack_types cache cohort_group de hd hfs hcache
    obtain ⟨fields, c2, heq, hfz, _⟩ :=
      cohortFold_zero batch_size chunk_size fs backend
        (get_pack_csv_paths main_folder pack_types cohort_group) hfs
        (([], 0), cache, 0) (by simp) hcache
    refine ⟨fields, c2, ?_, hfz⟩
    simp only [process_cohort_group_run]
    rw [hd, heq]

/-- C7 witness: one pack over an empty filesystem — the cohort "1_july"
resolves, the pack's identifier set is empty, and the window completes with
revenue 0 and zero backend calls. -/
theorem C7_empty_ids_no_queries_witness :
    ∃ fields c2,
      process_cohort_group_run 2026 1 2 2 "m" ["premium_packs_with_ad_ids.csv"]
          fsNone backendFail [] ["1_july"] =
        (some ⟨"1_july", 0, fields⟩, c2, 0) ∧
      ∀ kv ∈ fields, kv.2 = (0 : Rat) :=
  (C7_empty_ids_no_queries 2 2 2026 1 fsNone backendFail).2 "m"
    ["premium_packs_with_ad_ids.csv"] [] ["1_july"] ("2026-07-01", "2026-07-01")
    (by decide) (by decide) (by decide)

end Pipeline
